import Mathlib

/-!
Verification of the jsoncons JSON Schema validator core (draft-07 keyword
validators, UTF text codec, input sources, URI wrapper) against its
natural-language specification.  The definitions below are shallow embeddings
of the C++ sources:

  * `include/jsoncons/source.hpp`            (iterator/stream/string sources)
  * `src/jsoncons/json_text_traits.hpp`      (UTF-8 codec)
  * `include/jsoncons_ext/jsonschema/subschema.hpp` (uri_wrapper, reporters)
  * the jsonschema keyword validators (string/number/object/array/combining)

External collaborators (the JSON parser, jsoncons::uri recomposition, the
JSON-Pointer library, std::regex, base64, libm) are not part of the covered
sources; they appear either as explicit function parameters of the embedded
validators or as definitions marked `Modelled from the spec:`.
-/

namespace Jsoncons

/-- The JSON value model used by the validator (external contract, spec section 3):
a tagged sum.  int64/uint64/double are collapsed into `int` here because the
claims under study only exercise integral numeric instances; the numeric
keyword (`number_keyword`) is modelled separately over an ordered field. -/
inductive JsonValue where
  | null : JsonValue
  | bool (b : Bool) : JsonValue
  | int (n : Int) : JsonValue
  | str (s : String) : JsonValue
  | bytes (bs : List Nat) : JsonValue
  | arr (items : List JsonValue) : JsonValue
  | obj (fields : List (String × JsonValue)) : JsonValue

/-- Structural equality of JSON values, modelling jsoncons `operator==`
(deep value equality on the tree). -/
def JsonValue.beq : JsonValue → JsonValue → Bool
  | .null, .null => true
  | .bool a, .bool b => a == b
  | .int a, .int b => a == b
  | .str a, .str b => a == b
  | .bytes a, .bytes b => a == b
  | .arr a, .arr b => beqList a b
  | .obj a, .obj b => beqFields a b
  | _, _ => false
where
  beqList : List JsonValue → List JsonValue → Bool
    | [], [] => true
    | x :: xs, y :: ys => x.beq y && beqList xs ys
    | _, _ => false
  beqFields : List (String × JsonValue) → List (String × JsonValue) → Bool
    | [], [] => true
    | (k, x) :: xs, (l, y) :: ys => k == l && x.beq y && beqFields xs ys
    | _, _ => false

instance : BEq JsonValue := ⟨JsonValue.beq⟩

/-- A validation output record (spec section 3): instance location, message,
keyword, absolute keyword location, and nested sub-errors. -/
inductive validation_output where
  | mk (instance_location : String) (message : String) (keyword : String)
       (absolute_keyword_location : String)
       (nested_errors : List validation_output)

def validation_output.instance_location : validation_output → String
  | .mk l _ _ _ _ => l

def validation_output.message : validation_output → String
  | .mk _ m _ _ _ => m

def validation_output.keyword : validation_output → String
  | .mk _ _ k _ _ => k

def validation_output.absolute_keyword_location : validation_output → String
  | .mk _ _ _ a _ => a

def validation_output.nested_errors : validation_output → List validation_output
  | .mk _ _ _ _ n => n

-- ---------------------------------------------------------------------------
-- uri_wrapper (include/jsoncons_ext/jsonschema/subschema.hpp)
-- ---------------------------------------------------------------------------

/-- Modelled from the spec: the jsoncons::uri component record is not under
src/ (only its uses are).  Section 6 has the URI parser split a URI into
scheme/userinfo/host/port/path/query/fragment; `uri_wrapper::append` rebuilds
a uri from exactly these components with a new fragment. -/
structure model_uri where
  scheme : String
  userinfo : String
  host : String
  port : String
  path : String
  query : String
  fragment : String
deriving DecidableEq

/-- Modelled from the spec: jsoncons::uri recomposition (`uri::string()`) is
not under src/.  Per spec sections 4.3 and 8 (scenario 4: the patch path for
the root instance location extended by key x is the pointer `/x`), a URI with
no scheme/host/path renders as its fragment text alone. -/
def model_uri.render (u : model_uri) : String :=
  if u.scheme = "" && u.host = "" && u.path = "" && u.query = "" then
    u.fragment
  else
    u.scheme ++ "://" ++ u.userinfo ++ u.host ++ u.port ++ u.path ++ u.query
      ++ "#" ++ u.fragment

/-- Modelled from the spec: the jsonpointer escape of a token,
`~` becomes `~0` and `/` becomes `~1` (spec sections 4.3 and 6). -/
def escape_pointer_token (s : String) : String :=
  String.mk (s.data.flatMap fun c =>
    if c = '~' then ['~', '0'] else if c = '/' then ['~', '1'] else [c])

/-- Modelled from the spec: `json_pointer::operator/=` appends one escaped
token to a JSON Pointer string. -/
def pointer_slash (ptr field : String) : String :=
  ptr ++ "/" ++ escape_pointer_token field

/-- `uri_wrapper` (subschema.hpp): an absolute URI plus the raw fragment kept
as `identifier_`. -/
structure uri_wrapper where
  uri : model_uri
  identifier : String
deriving DecidableEq

/-- `uri_wrapper::has_json_pointer()`. -/
def uri_wrapper.has_json_pointer (u : uri_wrapper) : Bool :=
  u.identifier ≠ "" && u.identifier.front = '/'

/-- `uri_wrapper::has_identifier()`: fragment non-empty and not starting
with a slash. -/
def uri_wrapper.has_identifier (u : uri_wrapper) : Bool :=
  u.identifier ≠ "" && u.identifier.front ≠ '/'

/-- `uri_wrapper::string()`: the serialized URI. -/
def uri_wrapper.string (u : uri_wrapper) : String :=
  u.uri.render

/-- `uri_wrapper::append(const std::string&)`: a no-op on plain-name
fragments, otherwise extends the JSON-Pointer fragment by the escaped field
and rebuilds the uri from its components. -/
def uri_wrapper.append (u : uri_wrapper) (field : String) : uri_wrapper :=
  if u.has_identifier then u
  else
    let ptr := pointer_slash u.uri.fragment field
    { uri := { u.uri with fragment := ptr }, identifier := ptr }

/-- `uri_wrapper::append(std::size_t)`: the array-index overload; indices are
written in decimal. -/
def uri_wrapper.append_index (u : uri_wrapper) (index : Nat) : uri_wrapper :=
  if u.has_identifier then u
  else
    let ptr := u.uri.fragment ++ "/" ++ toString index
    { uri := { u.uri with fragment := ptr }, identifier := ptr }

-- ---------------------------------------------------------------------------
-- UTF-8 codec (src/jsoncons/json_text_traits.hpp, 8-bit specialization)
-- ---------------------------------------------------------------------------

/-- `uni_conversion_result` (json_text_traits.hpp). -/
inductive uni_conversion_result where
  | ok : uni_conversion_result
  | source_exhausted : uni_conversion_result
  | source_illegal : uni_conversion_result
deriving DecidableEq

/-- `uni_conversion_flags` (json_text_traits.hpp). -/
inductive uni_conversion_flags where
  | strict : uni_conversion_flags
  | lenient : uni_conversion_flags
deriving DecidableEq

/-- The `trailing_bytes_for_utf8` lookup table: number of trailing bytes keyed
by the lead byte (0 for 0x00-0xBF, 1 for 0xC0-0xDF, 2 for 0xE0-0xEF,
3 for 0xF0-0xF7, 4 for 0xF8-0xFB, 5 for 0xFC-0xFF). -/
def trailing_bytes_for_utf8 (b : Nat) : Nat :=
  if b < 0xC0 then 0
  else if b < 0xE0 then 1
  else if b < 0xF0 then 2
  else if b < 0xF8 then 3
  else if b < 0xFC then 4
  else 5

/-- A continuation byte must lie in `0x80..0xBF` (the cases 4/3/2 of
`is_legal` check `a < 0x80 || a > 0xBF` walking backwards). -/
def utf8_cont_ok (a : Nat) : Bool :=
  0x80 ≤ a && a ≤ 0xBF

/-- The inner switch of `is_legal` on the lead byte, constraining the second
byte of 2-, 3- and 4-byte sequences (narrower ranges for E0, ED, F0, F4). -/
def utf8_second_ok (lead a : Nat) : Bool :=
  if lead = 0xE0 then a ≥ 0xA0
  else if lead = 0xED then a ≤ 0x9F
  else if lead = 0xF0 then a ≥ 0x90
  else if lead = 0xF4 then a ≤ 0x8F
  else a ≥ 0x80

/-- The case-1 check of `is_legal`: a lone lead in `0x80..0xC1` is illegal
(continuation bytes and overlong leads C0/C1). -/
def utf8_lead_ok (lead : Nat) : Bool :=
  !(0x80 ≤ lead && lead < 0xC2)

/-- `json_text_traits<8-bit>::is_legal(source, length)`: Unicode D92
classification with the length predetermined by the lead byte.  The C++
fall-through switch checks trailing bytes right to left, then the second
byte against the lead, then the lead itself, and finally rejects leads
above 0xF4; lengths other than 1-4 return false. -/
def is_legal (source : List Nat) (length : Nat) : Bool :=
  match length, source with
  | 1, s0 :: _ =>
      utf8_lead_ok s0 && s0 ≤ 0xF4
  | 2, s0 :: s1 :: _ =>
      utf8_cont_ok s1 && utf8_second_ok s0 s1 && utf8_lead_ok s0 && s0 ≤ 0xF4
  | 3, s0 :: s1 :: s2 :: _ =>
      utf8_cont_ok s2 && utf8_cont_ok s1 && utf8_second_ok s0 s1 &&
        utf8_lead_ok s0 && s0 ≤ 0xF4
  | 4, s0 :: s1 :: s2 :: s3 :: _ =>
      utf8_cont_ok s3 && utf8_cont_ok s2 && utf8_cont_ok s1 &&
        utf8_second_ok s0 s1 && utf8_lead_ok s0 && s0 ≤ 0xF4
  | _, _ => false

/-- The `offsets_from_utf8` magic table subtracted after accumulating the
shifted bytes. -/
def offsets_from_utf8 (extra : Nat) : Nat :=
  match extra with
  | 0 => 0x00000000
  | 1 => 0x00003080
  | 2 => 0x000E2080
  | 3 => 0x03C82080
  | 4 => 0xFA082080
  | _ => 0x82082080

/-- The fall-through accumulation switch of `next_codepoint`: every byte but
the last is added then shifted left by 6; the last byte is added without a
shift. -/
def utf8_accum (acc : Nat) : List Nat → Nat
  | [] => acc
  | [b] => acc + b
  | b :: rest => utf8_accum ((acc + b) * 64) rest

/-- Replacement character U+FFFD (`uni_replacement_char`). -/
def uni_replacement_char : Nat := 0xFFFD

/-- Result of one `next_codepoint` step: the conversion result, the value
stored through the `target` pointer (`none` when the pointer is left
untouched), and how far `*source_begin` advanced. -/
structure next_codepoint_result where
  result : uni_conversion_result
  target : Option Nat
  advance : Nat
deriving DecidableEq

/-- `json_text_traits<8-bit>::next_codepoint(source_begin, source_end, target,
flags)`.  Reads the lead byte, determines the trailing count, reports
`source_exhausted` when the sequence runs past the end, rejects sequences
failing `is_legal` as `source_illegal` in both strict and lenient mode
(the C++ comment reads: do this check whether lenient or strict), then
decodes; decoded surrogate values are `source_illegal` in strict mode and
replaced by U+FFFD in lenient mode; values above U+10FFFF are replaced and
reported illegal.  An empty source is a caller error in C++ (the lead byte
is read unconditionally); it is mapped to `source_exhausted` here. -/
def next_codepoint (source : List Nat) (flags : uni_conversion_flags) :
    next_codepoint_result :=
  match source with
  | [] => ⟨.source_exhausted, none, 0⟩
  | s0 :: _ =>
    let extra := trailing_bytes_for_utf8 s0
    if extra ≥ source.length then ⟨.source_exhausted, none, 0⟩
    else if ¬ is_legal source (extra + 1) then ⟨.source_illegal, none, 0⟩
    else
      let ch := utf8_accum 0 (source.take (extra + 1)) - offsets_from_utf8 extra
      if ch ≤ 0x10FFFF then
        if 0xD800 ≤ ch ∧ ch ≤ 0xDFFF then
          match flags with
          | .strict => ⟨.source_illegal, none, 0⟩
          | .lenient => ⟨.ok, some uni_replacement_char, extra + 1⟩
        else ⟨.ok, some ch, extra + 1⟩
      else ⟨.source_illegal, some uni_replacement_char, extra + 1⟩

-- ---------------------------------------------------------------------------
-- Input sources (include/jsoncons/source.hpp)
-- ---------------------------------------------------------------------------

/-- One operation of the source contract exercised by the position claims. -/
inductive SourceOp where
  | getChar : SourceOp
  | ignore (n : Nat) : SourceOp
  | read (n : Nat) : SourceOp
  | peek : SourceOp
deriving DecidableEq

/-- `stream_source` state: the units still buffered in the underlying
streambuf, the `position_` counter, and the eof bit.  The underlying byte
source is modelled as a list, so the exception paths (`JSONCONS_CATCH`)
do not arise. -/
structure stream_source where
  buf : List Nat
  position : Nat
  eofbit : Bool
deriving DecidableEq

/-- `stream_source::get_character()`: bump one unit and `++position_` on
success; at eof set the eof bit and leave `position_` alone. -/
def stream_source.get_character (s : stream_source) :
    Option Nat × stream_source :=
  match s.buf with
  | [] => (none, { s with eofbit := true })
  | c :: rest => (some c, { s with buf := rest, position := s.position + 1 })

/-- `stream_source::ignore(count)`: bump up to `count` units, incrementing
`position_` per unit actually consumed; sets eof on running out. -/
def stream_source.ignore (s : stream_source) (count : Nat) : stream_source :=
  let k := min count s.buf.length
  { buf := s.buf.drop k, position := s.position + k,
    eofbit := s.eofbit || decide (s.buf.length < count) }

/-- `stream_source::read(p, length)`: `sgetn` copies up to `length` units and
returns the actual count, but `position_ += length` adds the requested
length.  Returns the actual count. -/
def stream_source.read (s : stream_source) (length : Nat) :
    Nat × stream_source :=
  let count := min length s.buf.length
  (count,
   { buf := s.buf.drop count, position := s.position + length,
     eofbit := s.eofbit || decide (count < length) })

/-- `stream_source::peek()`: `sgetc` does not consume and does not touch
`position_`. -/
def stream_source.peek (s : stream_source) : stream_source :=
  if s.buf.isEmpty then { s with eofbit := true } else s

/-- One step of a stream source under a source operation. -/
def stream_step (s : stream_source) : SourceOp → stream_source
  | .getChar => (s.get_character).2
  | .ignore n => s.ignore n
  | .read n => (s.read n).2
  | .peek => s.peek

/-- A sequence of source operations run left to right. -/
def stream_run (s : stream_source) : List SourceOp → stream_source
  | [] => s
  | op :: ops => stream_run (stream_step s op) ops

/-- Whether one operation, if it is a `read`, requests no more than the units
available in the buffer. -/
def op_read_ok (s : stream_source) : SourceOp → Bool
  | .read n => decide (n ≤ s.buf.length)
  | _ => true

/-- Whether every `read` in the operation sequence requests no more than the
units then available (so `sgetn` is fully satisfied). -/
def reads_in_bounds (s : stream_source) : List SourceOp → Bool
  | [] => true
  | op :: ops => op_read_ok s op && reads_in_bounds (stream_step s op) ops

/-- `iterator_source` state: the remaining `current_..end_` range, the
`position_` counter and the `eof_` flag. -/
structure iterator_source where
  buf : List Nat
  position : Nat
  eofflag : Bool
deriving DecidableEq

/-- The `iterator_source(first, last)` constructor: `position_(0)`,
`eof_(first == last)`. -/
def iterator_source.init (data : List Nat) : iterator_source :=
  ⟨data, 0, data.isEmpty⟩

/-- `iterator_source::get_character()`: advances the iterator but never
touches `position_`. -/
def iterator_source.get_character (s : iterator_source) :
    Option Nat × iterator_source :=
  match s.buf with
  | [] => (none, { s with eofflag := true })
  | c :: rest => (some c, { s with buf := rest })

/-- `iterator_source::ignore(count)`: advances up to `count`, sets eof on a
short advance; `position_` untouched. -/
def iterator_source.ignore (s : iterator_source) (count : Nat) :
    iterator_source :=
  let k := min count s.buf.length
  { s with buf := s.buf.drop k,
           eofflag := s.eofflag || decide (s.buf.length < count) }

/-- `iterator_source::read(p, length)`: copies up to `length` units, sets eof
on a short copy; `position_` untouched. -/
def iterator_source.read (s : iterator_source) (length : Nat) :
    Nat × iterator_source :=
  let count := min length s.buf.length
  (count, { s with buf := s.buf.drop count,
                   eofflag := s.eofflag || decide (count < length) })

/-- `iterator_source::peek()`: no state change at all. -/
def iterator_source.peek (s : iterator_source) : iterator_source := s

/-- One step of an iterator source under a source operation. -/
def iterator_step (s : iterator_source) : SourceOp → iterator_source
  | .getChar => (s.get_character).2
  | .ignore n => s.ignore n
  | .read n => (s.read n).2
  | .peek => s.peek

/-- A sequence of operations on an iterator source. -/
def iterator_run (s : iterator_source) : List SourceOp → iterator_source
  | [] => s
  | op :: ops => iterator_run (iterator_step s op) ops

-- ---------------------------------------------------------------------------
-- Keyword validators (jsonschema keyword rules translation unit)
-- ---------------------------------------------------------------------------

/-- The result of one `validate` call: the errors delivered to the reporter
and the entries appended to the patch. -/
abbrev validate_result := List validation_output × List JsonValue

/-- A child schema node held by shared handle (`schema_pointer`): its
`validate` entry point, its `get_default_value` entry point, and its
`absolute_keyword_location`.  Children are abstract here because the builder
attaches arbitrary sub-validators. -/
structure child_schema where
  validate : uri_wrapper → JsonValue → validate_result
  get_default_value : uri_wrapper → JsonValue → Option JsonValue
  absolute_keyword_location : String

/-- `instance.as<std::string>()` and `as<string_view>` as used by the string
keyword: the contained text of a string instance.  (For non-string kinds the
conversion is an external serialization; the string keyword only reaches it
with string or byte-string instances, and the claims exercise strings.) -/
def json_as_string : JsonValue → String
  | .str s => s
  | _ => ""

/-- Kind probe `instance.type() == json_type::string_value`. -/
def is_string_value : JsonValue → Bool
  | .str _ => true
  | _ => false

/-- Kind probe `instance.type() == json_type::byte_string_value`. -/
def is_byte_string_value : JsonValue → Bool
  | .bytes _ => true
  | _ => false

/-- The elements of an array instance (`instance.array_range()`); the array
keyword is only dispatched to array instances. -/
def json_array_items : JsonValue → List JsonValue
  | .arr xs => xs
  | _ => []

/-- The members of an object instance in input order
(`instance.object_range()`); the object keyword is only dispatched to object
instances. -/
def json_object_members : JsonValue → List (String × JsonValue)
  | .obj fs => fs
  | _ => []

/-- `instance.find(key)` on an object instance: the first member with the
given key. -/
def json_find (inst : JsonValue) (key : String) : Option JsonValue :=
  ((json_object_members inst).find? (fun m => m.1 == key)).map (·.2)

-- oneOf (one_of_criterion / combining_keyword)

/-- The error emitted by `one_of_criterion::is_complete` when more than one
subschema matched; the absolute keyword location is the literal "foo" in the
source. -/
def one_of_too_many_error (loc : uri_wrapper) (count : Nat) : validation_output :=
  .mk loc.string
      (toString count ++ " subschemas matched, but exactly one is required to match")
      "oneOf" "foo" []

/-- The error emitted by `combining_keyword::do_validate` when no subschema
matched, carrying all collected child errors as nested context. -/
def combined_none_error (loc : uri_wrapper) (akl : String)
    (nested : List validation_output) : validation_output :=
  .mk loc.string
      "No keyword_validator matched, but one of them is required to match"
      "combined" akl nested

/-- The loop of `combining_keyword<one_of_criterion>::do_validate`: each
subschema validates into the collecting reporter; a subschema that adds no
errors bumps `count`; after each subschema `one_of_criterion::is_complete`
reports and stops as soon as `count` exceeds one; when the loop ends with
`count == 0` the aggregated error is reported. -/
def one_of_go (loc : uri_wrapper) (inst : JsonValue) (akl : String) :
    List child_schema → Nat → List validation_output → List JsonValue →
    validate_result
  | [], count, local_errors, patch =>
      if count = 0 then ([combined_none_error loc akl local_errors], patch)
      else ([], patch)
  | c :: rest, count, local_errors, patch =>
      let r := c.validate loc inst
      let patch' := patch ++ r.2
      let count' := if r.1.isEmpty then count + 1 else count
      if count' > 1 then ([one_of_too_many_error loc count'], patch')
      else one_of_go loc inst akl rest count' (local_errors ++ r.1) patch'

/-- `combining_keyword<Json, one_of_criterion>::do_validate`. -/
def one_of_validate (subschemas : List child_schema) (akl : String)
    (loc : uri_wrapper) (inst : JsonValue) : validate_result :=
  one_of_go loc inst akl subschemas 0 [] []

-- string keyword (string_keyword, content_media_type_check)

/-- `content_media_type_check`: only the exact string "application/Json"
(note the capital J in the source) triggers a parse of the content; a parse
error is reported with keyword contentMediaType and the literal absolute
location "foo".  The JSON parser (`json_reader`) is an external collaborator
and appears as the `parse` parameter, returning `none` on success and the
error-code message on failure. -/
def content_media_type_check (parse : String → Option String)
    (loc : uri_wrapper) (content_media_type content : String) :
    List validation_output :=
  if content_media_type = "application/Json" then
    match parse content with
    | none => []
    | some msg =>
        [.mk loc.string ("Content is not JSON: " ++ msg) "contentMediaType" "foo" []]
  else []

/-- The parameter record of `string_keyword` built from the schema: length
bounds, the compiled `pattern` (std::regex is external, modelled as a search
predicate) with its source text, the optional format checker (external,
modelled as an error producer over the content), contentEncoding and
contentMediaType, and the node location. -/
structure string_keyword_params where
  max_length : Option Nat
  min_length : Option Nat
  pattern : Option (String → Bool)
  pattern_string : String
  format_check : Option (uri_wrapper → String → List validation_output)
  content_encoding : Option String
  content_media_type : Option String
  akl : String

/-- Modelled from the spec: `unicons::u32_length` is not under src/; the spec
(section 4.4.2) counts code points, which is what `String.length` counts. -/
def u32_length (s : String) : Nat := s.length

/-- The first stage of `string_keyword::do_validate`: compute the content
buffer and any contentEncoding errors.  With encoding "base64" the instance
text is decoded (decoder external, returning the decoded buffer and a
success flag); with any other non-empty encoding an error is reported and
the buffer stays empty; with the empty encoding nothing happens at all; with
no encoding the buffer is the instance text. -/
def string_content_stage (decode64 : String → String × Bool)
    (k : string_keyword_params) (loc : uri_wrapper) (inst : JsonValue) :
    List validation_output × String :=
  match k.content_encoding with
  | some enc =>
      if enc = "base64" then
        let r := decode64 (json_as_string inst)
        (if r.2 then []
         else [.mk loc.string "Content is not a base64 string" "contentEncoding" k.akl []],
         r.1)
      else if enc ≠ "" then
        ([.mk loc.string ("unable to check for contentEncoding " ++ enc)
            "contentEncoding" k.akl []], "")
      else ([], "")
  | none => ([], json_as_string inst)

/-- The remainder of `string_keyword::do_validate` after the content buffer
is fixed: the media-type check (or the byte-string diagnostic when no media
type is set), the early return for non-string instances, then the
minLength/maxLength/pattern/format checks, each over `content`. -/
def string_rest_validate (parse : String → Option String)
    (k : string_keyword_params) (loc : uri_wrapper) (inst : JsonValue)
    (content : String) : List validation_output :=
  (match k.content_media_type with
   | some cmt => content_media_type_check parse loc cmt content
   | none =>
       if is_byte_string_value inst then
         [.mk loc.string "Expected string, but is byte string"
            "contentMediaType" k.akl []]
       else []) ++
  (if ¬ is_string_value inst then []
   else
     (match k.min_length with
      | some m =>
          if u32_length content < m then
            [.mk loc.string
               ("Expected minLength: " ++ toString m ++ ", actual: "
                 ++ toString (u32_length content)) "minLength" k.akl []]
          else []
      | none => []) ++
     (match k.max_length with
      | some m =>
          if u32_length content > m then
            [.mk loc.string
               ("Expected maxLength: " ++ toString m ++ ", actual: "
                 ++ toString (u32_length content)) "maxLength" k.akl []]
          else []
      | none => []) ++
     (match k.pattern with
      | some p =>
          if ¬ p content then
            [.mk loc.string
               ("String \"" ++ json_as_string inst
                 ++ "\" does not match pattern \"" ++ k.pattern_string ++ "\"")
               "pattern" k.akl []]
          else []
      | none => []) ++
     (match k.format_check with
      | some f => f loc content
      | none => []))

/-- `string_keyword::do_validate`: content stage then the checks.  The
string keyword writes no patch entries. -/
def string_do_validate (decode64 : String → String × Bool)
    (parse : String → Option String) (k : string_keyword_params)
    (loc : uri_wrapper) (inst : JsonValue) : List validation_output :=
  let stage := string_content_stage decode64 k loc inst
  stage.1 ++ string_rest_validate parse k loc inst stage.2

-- number keyword (number_keyword<Json,T>)

/-- The numeric primitives used by `violates_multiple_of`: `std::remainder`
and `std::nextafter` from libm are external collaborators, so they are
parameters of the model; the carrier for double is ℚ. -/
structure num_ops where
  remainder : ℚ → ℚ → ℚ
  nextafter : ℚ → ℚ → ℚ

/-- The parameter record of `number_keyword`: bounds, exclusivity flags and
the multipleOf divisor. -/
structure number_keyword_params where
  maximum : Option ℚ
  minimum : Option ℚ
  exclusive_maximum : Bool
  exclusive_minimum : Bool
  multiple_of : Option ℚ

/-- `number_keyword::violates_multiple_of(x)`:
`|remainder(x, divisor)| > |nextafter(x, 0) - x|`, a one-ULP tolerance. -/
def violates_multiple_of (ops : num_ops) (divisor x : ℚ) : Bool :=
  |ops.remainder x divisor| > |ops.nextafter x 0 - x|

/-- `number_keyword::do_validate`: the lossless-conversion check
(`Json(value) != instance`, a flag here because the round trip is external),
then multipleOf guarded by `value != 0` (zero is a multiple of everything),
then the maximum and minimum checks with their exclusivity variants.
Messages render numbers through external formatting; the instance text is
the `inst_str` parameter and the schema numbers print through `toString`. -/
def number_do_validate (ops : num_ops) (k : number_keyword_params)
    (loc : uri_wrapper) (akl : String) (value : ℚ) (lossless : Bool)
    (inst_str : String) : List validation_output :=
  (if ¬ lossless then
     [.mk loc.string "Instance is not a number" "number" akl []]
   else []) ++
  (match k.multiple_of with
   | some d =>
       if value ≠ 0 ∧ violates_multiple_of ops d value then
         [.mk loc.string (inst_str ++ " is not a multiple of " ++ toString d)
            "multipleOf" akl []]
       else []
   | none => []) ++
  (match k.maximum with
   | some mx =>
       if (k.exclusive_maximum ∧ value ≥ mx) ∨ value > mx then
         [.mk loc.string (inst_str ++ " exceeds maximum of " ++ toString mx)
            "maximum" akl []]
       else []
   | none => []) ++
  (match k.minimum with
   | some mn =>
       if (k.exclusive_minimum ∧ value ≤ mn) ∨ value < mn then
         [.mk loc.string (inst_str ++ " is below minimum of " ++ toString mn)
            "minimum" akl []]
       else []
   | none => [])

-- array keyword (array_keyword)

/-- The parameter record of `array_keyword`. -/
structure array_keyword_params where
  max_items : Option Nat
  min_items : Option Nat
  unique_items : Bool
  items_schema : Option child_schema
  items : List child_schema
  additional_items : Option child_schema
  contains : Option child_schema
  akl : String

/-- The uniqueItems loop of `array_keyword::do_validate`: for every element,
`std::find` searches the remainder of the array for an equal element and, on
a hit, reports an error; there is no early exit, so every element with a
later duplicate produces one error. -/
def unique_items_errors (loc : uri_wrapper) (akl : String) :
    List JsonValue → List validation_output
  | [] => []
  | x :: rest =>
      (if rest.any (fun y => x == y) then
         [.mk loc.string "Array items are not unique" "uniqueItems" akl []]
       else []) ++ unique_items_errors loc akl rest

/-- The single-schema items loop: element `i` validates under
`location/<i>`. -/
def items_single_go (c : child_schema) (loc : uri_wrapper) :
    Nat → List JsonValue → validate_result
  | _, [] => ([], [])
  | index, x :: rest =>
      let r := c.validate (loc.append_index index) x
      let r' := items_single_go c loc (index + 1) rest
      (r.1 ++ r'.1, r.2 ++ r'.2)

/-- The list-form items loop: element `i` validates against `items_[i]` while
schemas remain, then against additionalItems; the loop breaks when neither is
available.  Note the source never increments `index` in this branch, so every
element is located at `location/0`. -/
def items_list_go (loc : uri_wrapper) (index : Nat) :
    List child_schema → Option child_schema → List JsonValue → validate_result
  | _, _, [] => ([], [])
  | [], none, _ :: _ => ([], [])
  | [], some add, x :: rest =>
      let r := add.validate (loc.append_index index) x
      let r' := items_list_go loc index [] (some add) rest
      (r.1 ++ r'.1, r.2 ++ r'.2)
  | c :: cs, add, x :: rest =>
      let r := c.validate (loc.append_index index) x
      let r' := items_list_go loc index cs add rest
      (r.1 ++ r'.1, r.2 ++ r'.2)

/-- The contains loop: each element validates into a local collecting
reporter until one adds no errors; when none does, a contains error is
reported with the collected errors as nested context.  Patches from the
attempted elements flow into the real patch. -/
def contains_go (c : child_schema) (loc : uri_wrapper) (akl : String)
    (collected : List validation_output) (patch : List JsonValue) :
    List JsonValue → validate_result
  | [] =>
      ([.mk loc.string
          "Expected at least one array item to match \"contains\" schema"
          "contains" akl collected], patch)
  | x :: rest =>
      let r := c.validate loc x
      if r.1.isEmpty then ([], patch ++ r.2)
      else contains_go c loc akl (collected ++ r.1) (patch ++ r.2) rest

/-- `array_keyword::do_validate`: length bounds, the uniqueItems scan, the
items/additionalItems loops, then contains. -/
def array_do_validate (k : array_keyword_params) (loc : uri_wrapper)
    (inst : JsonValue) : validate_result :=
  let xs := json_array_items inst
  let bounds :=
    (match k.max_items with
     | some m =>
         if xs.length > m then
           [.mk loc.string
              ("Expected maximum item count: " ++ toString m ++ ", found: "
                ++ toString xs.length) "maxItems" k.akl []]
         else []
     | none => []) ++
    (match k.min_items with
     | some m =>
         if xs.length < m then
           [.mk loc.string
              ("Expected at least " ++ toString m ++ " items but found "
                ++ toString xs.length) "minItems" k.akl []]
         else []
     | none => []) ++
    (if k.unique_items then unique_items_errors loc k.akl xs else [])
  let items_part :=
    match k.items_schema with
    | some c => items_single_go c loc 0 xs
    | none => items_list_go loc 0 k.items k.additional_items xs
  let contains_part :=
    match k.contains with
    | some c => contains_go c loc k.akl [] [] xs
    | none => ([], [])
  (bounds ++ items_part.1 ++ contains_part.1, items_part.2 ++ contains_part.2)

-- object keyword (object_keyword, required_keyword, update_patch)

/-- The parameter record of `object_keyword`: property-count bounds, the
nested required keyword (with its own location), the properties map in its
iteration order, patternProperties as search predicates paired with their
validators (std::regex external), additionalProperties, dependencies and
propertyNames. -/
structure object_keyword_params where
  max_properties : Option Nat
  min_properties : Option Nat
  required : Option (List String)
  required_akl : String
  properties : List (String × child_schema)
  pattern_properties : List ((String → Bool) × child_schema)
  additional_properties : Option child_schema
  dependencies : List (String × child_schema)
  property_names : Option child_schema
  akl : String

/-- `required_keyword::do_validate`: one error per listed name missing from
the instance. -/
def required_errors (loc : uri_wrapper) (akl : String) (inst : JsonValue)
    (names : List String) : List validation_output :=
  names.flatMap fun key =>
    if (json_find inst key).isNone then
      [.mk loc.string ("Required property \"" ++ key ++ "\" not found")
         "required" akl []]
    else []

/-- `update_patch`: a JSON-Patch add entry `{op, path, value}` whose path is
the serialized instance location. -/
def update_patch_entry (instance_location : uri_wrapper)
    (default_value : JsonValue) : JsonValue :=
  .obj [("op", .str "add"), ("path", .str instance_location.string),
        ("value", default_value)]

/-- Processing of one instance member in `object_keyword::do_validate`:
propertyNames on the key, the properties lookup, every matching
patternProperties entry, and the additionalProperties summary error (whose
sub-errors are collected locally and suppressed; its patches flow into the
real patch). -/
def object_member_step (k : object_keyword_params) (loc : uri_wrapper)
    (member : String × JsonValue) : validate_result :=
  let pn :=
    match k.property_names with
    | some c => c.validate loc (.str member.1)
    | none => ([], [])
  let prop :=
    match (k.properties.find? (fun p => p.1 == member.1)).map (·.2) with
    | some c => (c.validate (loc.append member.1) member.2, true)
    | none => ((([] : List validation_output), ([] : List JsonValue)), false)
  let pats := k.pattern_properties.filter (fun p => p.1 member.1)
  let pat_results := pats.map fun p => (p.2).validate (loc.append member.1) member.2
  let matched := prop.2 || !pats.isEmpty
  let add :=
    if ¬ matched then
      match k.additional_properties with
      | some c =>
          let r := c.validate (loc.append member.1) member.2
          (if ¬ r.1.isEmpty then
             [.mk loc.string
                ("Additional property \"" ++ member.1 ++ "\" found but was invalid.")
                "additionalProperties" c.absolute_keyword_location []]
           else [], r.2)
      | none => ([], [])
    else ([], [])
  (pn.1 ++ prop.1.1 ++ (pat_results.map (·.1)).flatten ++ add.1,
   pn.2 ++ prop.1.2 ++ (pat_results.map (·.2)).flatten ++ add.2)

/-- The reverse search of `object_keyword::do_validate`: every declared
property missing from the instance whose sub-schema yields a default value
appends one add-patch entry at `location/<key>`. -/
def object_default_patches (k : object_keyword_params) (loc : uri_wrapper)
    (inst : JsonValue) : List JsonValue :=
  k.properties.filterMap fun p =>
    if (json_find inst p.1).isNone then
      (p.2.get_default_value loc inst).map fun d =>
        update_patch_entry (loc.append p.1) d
    else none

/-- The dependencies loop: each dependency whose key is present validates the
whole instance at `location/<key>`. -/
def object_dependencies_step (k : object_keyword_params) (loc : uri_wrapper)
    (inst : JsonValue) : validate_result :=
  let results := k.dependencies.filterMap fun dep =>
    if (json_find inst dep.1).isSome then
      some ((dep.2).validate (loc.append dep.1) inst)
    else none
  ((results.map (·.1)).flatten, (results.map (·.2)).flatten)

/-- `object_keyword::do_validate`: property-count bounds, required, the
per-member loop, the reverse search appending default patches, then
dependencies. -/
def object_do_validate (k : object_keyword_params) (loc : uri_wrapper)
    (inst : JsonValue) : validate_result :=
  let members := json_object_members inst
  let bounds :=
    (match k.max_properties with
     | some m =>
         if members.length > m then
           [.mk loc.string
              ("Maximum properties: " ++ toString m ++ ", found: "
                ++ toString members.length) "maxProperties" k.akl []]
         else []
     | none => []) ++
    (match k.min_properties with
     | some m =>
         if members.length < m then
           [.mk loc.string
              ("Minimum properties: " ++ toString m ++ ", found: "
                ++ toString members.length) "minProperties" k.akl []]
         else []
     | none => []) ++
    (match k.required with
     | some names => required_errors loc k.required_akl inst names
     | none => [])
  let member_results := members.map (object_member_step k loc)
  let deps := object_dependencies_step k loc inst
  (bounds ++ (member_results.map (·.1)).flatten ++ deps.1,
   (member_results.map (·.2)).flatten ++ object_default_patches k loc inst
     ++ deps.2)

-- type keyword children used by the concrete scenarios

/-- The text `operator<<` prints for a `json_type` (external rendering, used
only in the expected-type error message). -/
def json_type_name : JsonValue → String
  | .null => "null"
  | .bool _ => "bool"
  | .int _ => "int64"
  | .str _ => "string"
  | .bytes _ => "byte_string"
  | .arr _ => "array"
  | .obj _ => "object"

/-- Numeric primitives for example schemas that set no multipleOf: the
functions are never invoked. -/
def trivial_num_ops : num_ops := ⟨fun _ _ => 0, fun _ _ => 0⟩

/-- A number keyword with none of maximum/minimum/multipleOf set, as built
from a schema that only names a numeric type. -/
def empty_number_params : number_keyword_params := ⟨none, none, false, false, none⟩

/-- The `type_keyword` node built for the schema with type "integer":
the type mapping routes numeric kinds to an `integer_keyword` with no
constraints and reports the expected-type error otherwise.
`type_keyword::get_default_value` returns `default_value_`, which is the
schema default when present and JSON null otherwise — the optional is
always engaged. -/
def type_integer_child (akl : String) (default_value : JsonValue) : child_schema where
  validate := fun loc inst =>
    match inst with
    | .int n =>
        (number_do_validate trivial_num_ops empty_number_params loc akl
          (n : ℚ) true (toString n), [])
    | _ =>
        ([.mk loc.string ("Expected integer, found " ++ json_type_name inst)
            "type" akl []], [])
  get_default_value := fun _ _ => some default_value
  absolute_keyword_location := akl

/-- The `type_keyword` node built for the schema with type "number". -/
def type_number_child (akl : String) (default_value : JsonValue) : child_schema where
  validate := fun loc inst =>
    match inst with
    | .int n =>
        (number_do_validate trivial_num_ops empty_number_params loc akl
          (n : ℚ) true (toString n), [])
    | _ =>
        ([.mk loc.string ("Expected number, found " ++ json_type_name inst)
            "type" akl []], [])
  get_default_value := fun _ _ => some default_value
  absolute_keyword_location := akl

/-- The instance location of the document root: an empty URI with an empty
fragment. -/
def root_loc : uri_wrapper := ⟨⟨"", "", "", "", "", "", ""⟩, ""⟩

-- ---------------------------------------------------------------------------
-- Theorems
-- ---------------------------------------------------------------------------

-- C8 ------------------------------------------------------------------------

/-- C8: for every `uri_wrapper` whose fragment is a plain-name identifier,
both `append` overloads (field name and array index) return the receiver
unchanged, and consequently `append` is idempotent on such wrappers. -/
theorem append_identifier_is_noop (u : uri_wrapper) (field : String)
    (index : Nat) (h : u.has_identifier = true) :
    u.append field = u ∧ u.append_index index = u ∧
    (u.append field).append field = u.append field ∧
    (u.append_index index).append_index index = u.append_index index := by
  have h1 : u.append field = u := by simp [uri_wrapper.append, h]
  have h2 : u.append_index index = u := by simp [uri_wrapper.append_index, h]
  exact ⟨h1, h2, by rw [h1, h1], by rw [h2, h2]⟩

/-- Witness for C8: a wrapper carrying the plain-name fragment "anchor" is
left unchanged by `append`. -/
theorem append_identifier_is_noop_witness :
    uri_wrapper.append ⟨⟨"https", "", "example.com", "", "/s.json", "", "anchor"⟩, "anchor"⟩ "x"
      = ⟨⟨"https", "", "example.com", "", "/s.json", "", "anchor"⟩, "anchor"⟩ :=
  (append_identifier_is_noop
    ⟨⟨"https", "", "example.com", "", "/s.json", "", "anchor"⟩, "anchor"⟩
    "x" 0 (by decide)).1

-- C9 ------------------------------------------------------------------------

/-- Each `iterator_source` operation leaves `position_` unchanged. -/
theorem iterator_step_position (s : iterator_source) (op : SourceOp) :
    (iterator_step s op).position = s.position := by
  cases op with
  | getChar =>
      cases h : s.buf <;>
        simp [iterator_step, iterator_source.get_character, h]
  | ignore n => simp [iterator_step, iterator_source.ignore]
  | read n => simp [iterator_step, iterator_source.read]
  | peek => simp [iterator_step, iterator_source.peek]

/-- C9: an `iterator_source` starts with `position_ == 0` and no operation
(get_character, ignore, read, peek) ever changes it, so `position()` is
identically 0 after any operation sequence. -/
theorem iterator_source_position_always_zero (data : List Nat)
    (ops : List SourceOp) :
    (iterator_run (iterator_source.init data) ops).position = 0 ∧
    (iterator_source.init data).position = 0 := by
  refine ⟨?_, rfl⟩
  suffices h : ∀ s : iterator_source, ∀ ops : List SourceOp,
      (iterator_run s ops).position = s.position by
    exact h (iterator_source.init data) ops
  intro s ops
  induction ops generalizing s with
  | nil => rfl
  | cons op rest ih =>
      rw [iterator_run, ih, iterator_step_position]

-- C3 ------------------------------------------------------------------------

/-- Counterexample to C3: the illegal two-byte sequence C0 80 (an overlong
encoding) produces `source_illegal` with the target pointer untouched in
lenient mode; the claim expects `ok` with U+FFFD. -/
theorem next_codepoint_lenient_illegal_counterexample :
    (next_codepoint [0xC0, 0x80] .lenient).result = .source_illegal ∧
    (next_codepoint [0xC0, 0x80] .lenient).target = none ∧
    uni_conversion_result.source_illegal ≠ .ok := by
  refine ⟨rfl, rfl, by decide⟩

/-- C3 (amended): `next_codepoint` checks `is_legal` before any lenient
replacement, so a sequence that fails the legality check (with enough bytes
available) yields `source_illegal` with no target write in lenient mode just
as in strict mode. -/
theorem next_codepoint_illegal_result (b : Nat) (rest : List Nat)
    (flags : uni_conversion_flags)
    (hlen : trailing_bytes_for_utf8 b < (b :: rest).length)
    (hbad : is_legal (b :: rest) (trailing_bytes_for_utf8 b + 1) = false) :
    next_codepoint (b :: rest) flags = ⟨.source_illegal, none, 0⟩ := by
  have h1 : ¬ (trailing_bytes_for_utf8 b ≥ (b :: rest).length) :=
    Nat.not_le.mpr hlen
  simp [next_codepoint, h1, hbad]
  simpa using hlen

/-- Witness for C3 (amended): the same illegal sequence in strict mode. -/
theorem next_codepoint_illegal_result_witness :
    next_codepoint [0xC0, 0x80] .strict = ⟨.source_illegal, none, 0⟩ :=
  next_codepoint_illegal_result 0xC0 [0x80] .strict (by decide) (by decide)

-- C4 ------------------------------------------------------------------------

/-- Counterexample to C4: a stream holding one unit answers a `read` of two
units by consuming one unit but adding the requested length to `position_`,
so `position()` is 2 while only 1 unit was consumed. -/
theorem stream_position_counterexample :
    (stream_run ⟨[7], 0, false⟩ [.read 2]).position = 2 ∧
    (⟨[7], 0, false⟩ : stream_source).buf.length
      - (stream_run ⟨[7], 0, false⟩ [.read 2]).buf.length = 1 ∧
    (2 : Nat) ≠ 1 := by
  refine ⟨rfl, rfl, by decide⟩

/-- One stream operation never decreases `position_`. -/
theorem stream_step_position_mono (s : stream_source) (op : SourceOp) :
    s.position ≤ (stream_step s op).position := by
  cases op with
  | getChar =>
      cases h : s.buf <;>
        simp [stream_step, stream_source.get_character, h]
  | ignore n => simp [stream_step, stream_source.ignore]
  | read n => simp [stream_step, stream_source.read]
  | peek =>
      by_cases h : s.buf.isEmpty <;> simp [stream_step, stream_source.peek, h]

/-- A stream operation whose `read` request fits in the buffer increases
`position_` by exactly the units it consumes. -/
theorem stream_step_position_exact (s : stream_source) (op : SourceOp)
    (h : ∀ n, op = .read n → n ≤ s.buf.length) :
    (stream_step s op).position + (stream_step s op).buf.length
      = s.position + s.buf.length := by
  cases op with
  | getChar =>
      cases hb : s.buf <;>
        (simp [stream_step, stream_source.get_character, hb]; try omega)
  | ignore n =>
      simp [stream_step, stream_source.ignore]
      omega
  | read n =>
      have hn := h n rfl
      simp [stream_step, stream_source.read]
      omega
  | peek =>
      by_cases hb : s.buf.isEmpty <;> simp [stream_step, stream_source.peek, hb]

/-- C4 (amended): `position()` is monotonically non-decreasing under every
operation sequence, and it equals the count of units actually consumed
whenever no `read` requests more than the units then buffered (each `read`
adds its requested length to `position_`, not the actual `sgetn` count). -/
theorem stream_position_amended (s : stream_source) (ops : List SourceOp) :
    s.position ≤ (stream_run s ops).position ∧
    (reads_in_bounds s ops = true →
      (stream_run s ops).position + (stream_run s ops).buf.length
        = s.position + s.buf.length) := by
  induction ops generalizing s with
  | nil => exact ⟨Nat.le_refl _, fun _ => rfl⟩
  | cons op rest ih =>
      constructor
      · exact Nat.le_trans (stream_step_position_mono s op)
          (ih (stream_step s op)).1
      · intro hb
        rw [reads_in_bounds, Bool.and_eq_true] at hb
        rw [stream_run]
        rw [(ih (stream_step s op)).2 hb.2]
        apply stream_step_position_exact
        intro n hn
        subst hn
        simpa [op_read_ok] using hb.1

/-- Witness for C4 (amended): after one `get_character` and a fully
satisfied `read` of one unit, position 2 equals the two consumed units. -/
theorem stream_position_amended_witness :
    (⟨[1, 2], 0, false⟩ : stream_source).position
      ≤ (stream_run ⟨[1, 2], 0, false⟩ [.getChar, .read 1]).position ∧
    (stream_run ⟨[1, 2], 0, false⟩ [.getChar, .read 1]).position
        + (stream_run ⟨[1, 2], 0, false⟩ [.getChar, .read 1]).buf.length
      = (⟨[1, 2], 0, false⟩ : stream_source).position
        + (⟨[1, 2], 0, false⟩ : stream_source).buf.length := by
  have h := stream_position_amended ⟨[1, 2], 0, false⟩ [.getChar, .read 1]
  exact ⟨h.1, h.2 (by decide)⟩

-- C5 ------------------------------------------------------------------------

/-- The number of array positions that have an equal element later in the
array (each such position triggers one report in the uniqueItems scan). -/
def dup_later_count : List JsonValue → Nat
  | [] => 0
  | x :: rest =>
      (if rest.any (fun y => x == y) then 1 else 0) + dup_later_count rest

/-- Counterexample to C5: the instance with elements 1, 1, 1 under a
uniqueItems schema produces two uniqueItems errors, not a single one. -/
theorem unique_items_multiple_errors_counterexample :
    ((array_do_validate ⟨none, none, true, none, [], none, none, "A"⟩
        root_loc (.arr [.int 1, .int 1, .int 1])).1.countP
      (fun e => e.keyword == "uniqueItems")) = 2 ∧ (2 : Nat) ≠ 1 := by
  refine ⟨rfl, by decide⟩

/-- The uniqueItems scan reports once per position with a later duplicate. -/
theorem unique_items_errors_count (loc : uri_wrapper) (akl : String)
    (xs : List JsonValue) :
    (unique_items_errors loc akl xs).countP (fun e => e.keyword == "uniqueItems")
      = dup_later_count xs := by
  induction xs with
  | nil => rfl
  | cons x rest ih =>
      rw [unique_items_errors, dup_later_count, List.countP_append, ih]
      by_cases h : rest.any (fun y => x == y) <;>
        simp [h, List.countP_cons, validation_output.keyword, Nat.add_comm]

/-- C5 (amended): an array node with uniqueItems reports one uniqueItems
error per element that has an equal element later in the array, with no
early exit; when exactly one equal pair exists — as in the literal scenario
with elements 1, 2, 1 — exactly one uniqueItems error results. -/
theorem unique_items_error_count (mx mn : Option Nat) (akl : String)
    (loc : uri_wrapper) (xs : List JsonValue) :
    ((array_do_validate ⟨mx, mn, true, none, [], none, none, akl⟩
        loc (.arr xs)).1.countP (fun e => e.keyword == "uniqueItems"))
      = dup_later_count xs ∧
    (array_do_validate ⟨none, none, true, none, [], none, none, akl⟩
        loc (.arr [.int 1, .int 2, .int 1])).1
      = [.mk loc.string "Array items are not unique" "uniqueItems" akl []] := by
  constructor
  · have hitems : items_list_go loc 0 ([] : List child_schema) none xs
        = ([], []) := by
      cases xs <;> rfl
    rw [array_do_validate]
    simp only [json_array_items, hitems]
    rw [List.append_nil]
    rw [List.countP_append, List.countP_append, List.countP_append]
    have hmx : ∀ o : Option Nat, ∀ kw : String, kw ≠ "uniqueItems" →
        (List.countP (fun e => e.keyword == "uniqueItems")
          (match o with
           | some m => if xs.length > m then
               [validation_output.mk loc.string
                 ("Expected maximum item count: " ++ toString m ++ ", found: "
                   ++ toString xs.length) "maxItems" akl []] else []
           | none => [])) = 0 := by
      intro o kw _
      cases o with
      | none => rfl
      | some m =>
          by_cases h : xs.length > m <;>
            simp [h, List.countP_cons, validation_output.keyword]
    cases mx with
    | none =>
        cases mn with
        | none => simpa using unique_items_errors_count loc akl xs
        | some m =>
            by_cases h : xs.length < m <;>
              simpa [h, List.countP_cons, validation_output.keyword]
                using unique_items_errors_count loc akl xs
    | some m =>
        cases mn with
        | none =>
            by_cases h : xs.length > m <;>
              simpa [h, List.countP_cons, validation_output.keyword]
                using unique_items_errors_count loc akl xs
        | some m2 =>
            by_cases h : xs.length > m <;> by_cases h2 : xs.length < m2 <;>
              simpa [h, h2, List.countP_cons, validation_output.keyword]
                using unique_items_errors_count loc akl xs
  · rfl

-- C7 ------------------------------------------------------------------------

/-- C7: a number node with a multipleOf divisor reports a multipleOf error
exactly when the value is nonzero and the remainder exceeds the one-ULP
tolerance `|nextafter(value, 0) - value|`; in particular a zero value never
produces a multipleOf error, whatever the divisor. -/
theorem multiple_of_error_iff (ops : num_ops) (k : number_keyword_params)
    (loc : uri_wrapper) (akl : String) (d value : ℚ) (lossless : Bool)
    (inst_str : String) :
    ((number_do_validate ops { k with multiple_of := some d } loc akl value
        lossless inst_str).countP (fun e => e.keyword == "multipleOf"))
      = if value ≠ 0 ∧ violates_multiple_of ops d value then 1 else 0 := by
  rw [number_do_validate]
  rw [List.countP_append, List.countP_append, List.countP_append]
  have h1 : (List.countP (fun e => e.keyword == "multipleOf")
      (if ¬ lossless then
        [validation_output.mk loc.string "Instance is not a number" "number" akl []]
       else [])) = 0 := by
    by_cases h : lossless <;> simp [h, List.countP_cons, validation_output.keyword]
  have h3 : (List.countP (fun e => e.keyword == "multipleOf")
      (match k.maximum with
       | some mx =>
           if (k.exclusive_maximum ∧ value ≥ mx) ∨ value > mx then
             [validation_output.mk loc.string
               (inst_str ++ " exceeds maximum of " ++ toString mx) "maximum" akl []]
           else []
       | none => [])) = 0 := by
    cases k.maximum with
    | none => rfl
    | some mx =>
        by_cases h : (k.exclusive_maximum ∧ value ≥ mx) ∨ value > mx <;>
          simp [h, List.countP_cons, validation_output.keyword]
  have h4 : (List.countP (fun e => e.keyword == "multipleOf")
      (match k.minimum with
       | some mn =>
           if (k.exclusive_minimum ∧ value ≤ mn) ∨ value < mn then
             [validation_output.mk loc.string
               (inst_str ++ " is below minimum of " ++ toString mn) "minimum" akl []]
           else []
       | none => [])) = 0 := by
    cases k.minimum with
    | none => rfl
    | some mn =>
        by_cases h : (k.exclusive_minimum ∧ value ≤ mn) ∨ value < mn <;>
          simp [h, List.countP_cons, validation_output.keyword]
  simp only [h1, h3, h4]
  by_cases h2 : value ≠ 0 ∧ violates_multiple_of ops d value <;>
    simp [h2, List.countP_cons, validation_output.keyword]

-- C10 -----------------------------------------------------------------------

/-- C10: with contentEncoding set to the empty string, the content stage
neither decodes nor reports (the base64 branch and the non-empty diagnostic
are both skipped and the instance text is never copied into the buffer), so
validation equals the remaining checks applied to the empty content string;
concretely, a node requiring minLength 3 rejects the five-character instance
"hello" because the measured content is empty. -/
theorem content_encoding_empty_checks_empty_content
    (decode64 : String → String × Bool) (parse : String → Option String)
    (k : string_keyword_params) (loc : uri_wrapper) (inst : JsonValue) :
    string_content_stage decode64 { k with content_encoding := some "" } loc inst
      = ([], "") ∧
    string_do_validate decode64 parse { k with content_encoding := some "" } loc inst
      = string_rest_validate parse { k with content_encoding := some "" } loc inst "" ∧
    string_do_validate decode64 parse
        ⟨none, some 3, none, "", none, some "", none, "A"⟩ loc (.str "hello")
      = [.mk loc.string "Expected minLength: 3, actual: 0" "minLength" "A" []] := by
  refine ⟨rfl, rfl, ?_⟩
  have h : string_do_validate decode64 parse
      ⟨none, some 3, none, "", none, some "", none, "A"⟩ loc (.str "hello")
      = string_rest_validate parse
          ⟨none, some 3, none, "", none, some "", none, "A"⟩ loc (.str "hello") "" := rfl
  rw [h]
  rfl

-- C2 ------------------------------------------------------------------------

/-- A conditional singleton error whose keyword fails the counted predicate
contributes nothing to the count. -/
theorem countP_single_if (q : Prop) [Decidable q] (e : validation_output)
    (p : validation_output → Bool) (hp : p e = false) :
    (if q then [e] else []).countP p = 0 := by
  split <;> simp [List.countP_cons, hp]

/-- The content stage of the string keyword only ever reports with keyword
contentEncoding, never contentMediaType. -/
theorem string_content_stage_no_media_errors
    (decode64 : String → String × Bool) (k : string_keyword_params)
    (loc : uri_wrapper) (inst : JsonValue) :
    ((string_content_stage decode64 k loc inst).1.countP
      (fun e => e.keyword == "contentMediaType")) = 0 := by
  rw [string_content_stage]
  cases k.content_encoding with
  | none => rfl
  | some enc =>
      by_cases h1 : enc = "base64"
      · by_cases h2 : (decode64 (json_as_string inst)).2 <;>
          simp [h1, h2, List.countP_cons, validation_output.keyword]
      · by_cases h2 : enc = "" <;>
          simp [h1, h2, List.countP_cons, validation_output.keyword]

/-- With contentMediaType set to "application/json" and no format checker,
the remaining string checks never report with keyword contentMediaType:
the media comparison against "application/Json" fails, and the length and
pattern checks carry their own keywords. -/
theorem string_rest_no_media_errors (parse : String → Option String)
    (k : string_keyword_params) (loc : uri_wrapper) (inst : JsonValue)
    (content : String)
    (hm : k.content_media_type = some "application/json")
    (hf : k.format_check = none) :
    ((string_rest_validate parse k loc inst content).countP
      (fun e => e.keyword == "contentMediaType")) = 0 := by
  have hne : ("application/json" : String) ≠ "application/Json" := by decide
  have h0 : content_media_type_check parse loc "application/json" content = [] := by
    rw [content_media_type_check, if_neg hne]
  rw [string_rest_validate, hm, hf]
  simp only [h0]
  rw [List.countP_append]
  by_cases hs : is_string_value inst
  · rw [if_neg (by simp [hs]), List.countP_append, List.countP_append,
      List.countP_append]
    have hmin : (List.countP (fun e => e.keyword == "contentMediaType")
        (match k.min_length with
         | some m =>
             if u32_length content < m then
               [validation_output.mk loc.string
                 ("Expected minLength: " ++ toString m ++ ", actual: "
                   ++ toString (u32_length content)) "minLength" k.akl []]
             else []
         | none => [])) = 0 := by
      cases k.min_length with
      | none => rfl
      | some m => exact countP_single_if _ _ _ rfl
    have hmax : (List.countP (fun e => e.keyword == "contentMediaType")
        (match k.max_length with
         | some m =>
             if u32_length content > m then
               [validation_output.mk loc.string
                 ("Expected maxLength: " ++ toString m ++ ", actual: "
                   ++ toString (u32_length content)) "maxLength" k.akl []]
             else []
         | none => [])) = 0 := by
      cases k.max_length with
      | none => rfl
      | some m => exact countP_single_if _ _ _ rfl
    have hpat : (List.countP (fun e => e.keyword == "contentMediaType")
        (match k.pattern with
         | some p =>
             if ¬ p content then
               [validation_output.mk loc.string
                 ("String \"" ++ json_as_string inst
                   ++ "\" does not match pattern \"" ++ k.pattern_string ++ "\"")
                 "pattern" k.akl []]
             else []
         | none => [])) = 0 := by
      cases k.pattern with
      | none => rfl
      | some p => exact countP_single_if _ _ _ rfl
    rw [hmin, hmax, hpat]
    rfl
  · simp [hs]

/-- C2 is a code bug: `content_media_type_check` compares the schema value
against the literal "application/Json" (capital J), so a node whose schema
sets contentMediaType to "application/json" never parses the content and
never reports a contentMediaType error, whatever the parser would say; only
the unreachable spelling "application/Json" triggers the parse. -/
theorem content_media_type_json_never_checked
    (decode64 : String → String × Bool) (parse : String → Option String)
    (k : string_keyword_params) (loc : uri_wrapper) (inst : JsonValue)
    (content : String) :
    content_media_type_check parse loc "application/json" content = [] ∧
    ((string_do_validate decode64 parse
        { k with content_media_type := some "application/json",
                 format_check := none } loc inst).countP
      (fun e => e.keyword == "contentMediaType")) = 0 := by
  have hne : ("application/json" : String) ≠ "application/Json" := by decide
  constructor
  · rw [content_media_type_check, if_neg hne]
  · simp only [string_do_validate]
    rw [List.countP_append]
    rw [string_content_stage_no_media_errors]
    rw [string_rest_no_media_errors _ _ _ _ _ rfl rfl]

-- C1 ------------------------------------------------------------------------

/-- The number of subschemas that validate the instance without producing an
error (what the claim calls the success count). -/
def count_passing (cs : List child_schema) (loc : uri_wrapper)
    (inst : JsonValue) : Nat :=
  (cs.filter (fun c => (c.validate loc inst).1.isEmpty)).length

/-- A child that always validates successfully (a true schema). -/
def pass_child : child_schema :=
  ⟨fun _ _ => ([], []), fun _ _ => none, "p"⟩

/-- Counterexample to C1: with three subschemas that all pass, the oneOf loop
stops at the second success and reports the message with count 2, although
all three children validate without error; the claimed message with the full
count 3 is not produced (and the third child is never run). -/
theorem one_of_short_circuit_counterexample :
    (one_of_validate [pass_child, pass_child, pass_child] "akl" root_loc .null).1
      = [one_of_too_many_error root_loc 2] ∧
    count_passing [pass_child, pass_child, pass_child] root_loc .null = 3 ∧
    (one_of_too_many_error root_loc 2).message
      = "2 subschemas matched, but exactly one is required to match" ∧
    ("2 subschemas matched, but exactly one is required to match" : String)
      ≠ "3 subschemas matched, but exactly one is required to match" := by
  refine ⟨rfl, rfl, rfl, by decide⟩

/-- `count_passing` unfolded over a cons cell. -/
theorem count_passing_cons (c : child_schema) (cs : List child_schema)
    (loc : uri_wrapper) (inst : JsonValue) :
    count_passing (c :: cs) loc inst
      = (if (c.validate loc inst).1.isEmpty then 1 else 0)
        + count_passing cs loc inst := by
  by_cases h : (c.validate loc inst).1.isEmpty <;>
    simp [count_passing, List.filter_cons, h, Nat.add_comm]

/-- The oneOf loop from an intermediate state: with one success already
banked it errors as soon as any remaining subschema passes, and with no
success banked it follows the full case analysis on the remaining pass
count. -/
theorem one_of_go_spec (loc : uri_wrapper) (inst : JsonValue) (akl : String)
    (cs : List child_schema) :
    ∀ local_errors patch,
    ((one_of_go loc inst akl cs 1 local_errors patch).1
      = (if count_passing cs loc inst = 0 then []
         else [one_of_too_many_error loc 2])) ∧
    ((one_of_go loc inst akl cs 0 local_errors patch).1
      = (if count_passing cs loc inst = 1 then []
         else if count_passing cs loc inst = 0 then
           [combined_none_error loc akl
             (local_errors ++ cs.flatMap fun c => (c.validate loc inst).1)]
         else [one_of_too_many_error loc 2])) := by
  induction cs with
  | nil =>
      intro local_errors patch
      constructor
      · rfl
      · simp only [one_of_go, count_passing, List.filter_nil, List.length_nil,
          List.flatMap_nil, List.append_nil]
        rfl
  | cons c rest ih =>
      intro local_errors patch
      rw [count_passing_cons]
      by_cases h : (c.validate loc inst).1.isEmpty
      · constructor
        · rw [if_neg (by simp [h])]
          simp only [one_of_go, h, if_true, Nat.lt_irrefl]
          rw [if_pos (by omega)]
        · simp only [one_of_go, h, if_true]
          rw [if_neg (by omega)]
          rw [(ih (local_errors ++ (c.validate loc inst).1) (patch ++ (c.validate loc inst).2)).1]
          by_cases h0 : count_passing rest loc inst = 0
          · rw [if_pos h0, if_pos (by omega)]
          · rw [if_neg h0, if_neg (by omega), if_neg (by omega)]
      · constructor
        · simp only [one_of_go, h, Bool.false_eq_true, if_false]
          rw [if_neg (show ¬ (1 > 1) by omega)]
          rw [(ih (local_errors ++ (c.validate loc inst).1)
                (patch ++ (c.validate loc inst).2)).1]
          simp
        · simp only [one_of_go, h, Bool.false_eq_true, if_false]
          rw [if_neg (show ¬ (0 > 1) by omega)]
          rw [(ih (local_errors ++ (c.validate loc inst).1)
                (patch ++ (c.validate loc inst).2)).2]
          simp only [List.flatMap_cons, List.append_assoc, Nat.zero_add]

/-- C1 (amended): oneOf reports an error exactly when the number of passing
subschemas differs from 1, but it runs the children only until a second
success: with two or more passing children the single reported error always
carries the message with count 2, and with none a combined error nests all
child errors.  The literal scenario — integer and number subschemas against
instance 3 — yields exactly the error whose message is "2 subschemas
matched, but exactly one is required to match". -/
theorem one_of_validate_errors_spec :
    (∀ (cs : List child_schema) (akl : String) (loc : uri_wrapper)
       (inst : JsonValue),
      (one_of_validate cs akl loc inst).1
        = (if count_passing cs loc inst = 1 then []
           else if count_passing cs loc inst = 0 then
             [combined_none_error loc akl
               (cs.flatMap fun c => (c.validate loc inst).1)]
           else [one_of_too_many_error loc 2])) ∧
    (one_of_validate [type_integer_child "i" .null, type_number_child "n" .null]
        "akl" root_loc (.int 3)).1
      = [one_of_too_many_error root_loc 2] ∧
    (one_of_too_many_error root_loc 2).message
      = "2 subschemas matched, but exactly one is required to match" := by
  refine ⟨?_, rfl, rfl⟩
  intro cs akl loc inst
  rw [one_of_validate]
  have h := (one_of_go_spec loc inst akl cs [] []).2
  simpa using h

-- C6 ------------------------------------------------------------------------

/-- The object node built for the schema of the literal scenario: an object
with the single declared property x of type integer carrying default 7. -/
def example_object_node : object_keyword_params :=
  ⟨none, none, none, "", [("x", type_integer_child "i" (.int 7))], [],
   none, [], none, "o"⟩

/-- C6: whenever a declared property is missing from the instance and its
sub-schema yields a default value, the object validator appends the add
patch entry at `location/<key>`; and for the literal scenario — a single
integer property x with default 7 against the empty object — validation
yields no errors and the patch consisting of exactly
the entry op add, path /x, value 7. -/
theorem object_missing_property_default_patch :
    (∀ (k : object_keyword_params) (loc : uri_wrapper) (inst : JsonValue)
       (key : String) (c : child_schema) (d : JsonValue),
      (key, c) ∈ k.properties → json_find inst key = none →
      c.get_default_value loc inst = some d →
      update_patch_entry (loc.append key) d ∈ (object_do_validate k loc inst).2) ∧
    object_do_validate example_object_node root_loc (.obj [])
      = ([], [.obj [("op", .str "add"), ("path", .str "/x"),
                    ("value", .int 7)]]) := by
  constructor
  · intro k loc inst key c d hmem hfind hdef
    have hentry : update_patch_entry (loc.append key) d
        ∈ object_default_patches k loc inst := by
      apply List.mem_filterMap.mpr
      refine ⟨(key, c), hmem, ?_⟩
      simp [hfind, hdef]
    simp only [object_do_validate]
    exact List.mem_append.mpr (Or.inl (List.mem_append.mpr (Or.inr hentry)))
  · rfl

/-- Witness for C6: the missing property x with default 7 contributes its
patch entry in the literal scenario. -/
theorem object_missing_property_default_patch_witness :
    update_patch_entry (root_loc.append "x") (.int 7)
      ∈ (object_do_validate example_object_node root_loc (.obj [])).2 :=
  object_missing_property_default_patch.1 example_object_node root_loc
    (.obj []) "x" (type_integer_child "i" (.int 7)) (.int 7)
    (List.Mem.head _) rfl rfl

end Jsoncons
